import Mathlib

/-!
Verification development for the topography-of-hci repository
(topography-builder front end).

The JavaScript sources are shallowly embedded here.  JavaScript numbers
are modelled as exact rationals extended with the three special values
`+Infinity`, `-Infinity` and `NaN` (type `JsNum`); IEEE-754 rounding is
idealised away, which is the standard idealisation for the arithmetic
these claims quantify over.  DOM attribute access returning `null` is
modelled with `Option String`, and JavaScript truthiness of strings and
numbers is modelled explicitly.
-/

/-- JavaScript number: an exact rational, `+Infinity`, `-Infinity` or `NaN`.
(`-0` is identified with `0`.) -/
inductive JsNum where
  | num (q : ℚ)
  | posInf
  | negInf
  | nan
deriving DecidableEq

namespace JsNum

/-- `isNaN x` of JavaScript. -/
def isNaNb : JsNum → Bool
  | nan => true
  | _ => false

/-- JavaScript truthiness of a number: `0` and `NaN` are falsy. -/
def truthy : JsNum → Bool
  | num q => decide (q ≠ 0)
  | posInf => true
  | negInf => true
  | nan => false

/-- JavaScript `+` on numbers. -/
def add : JsNum → JsNum → JsNum
  | num a, num b => num (a + b)
  | num _, posInf => posInf
  | num _, negInf => negInf
  | posInf, num _ => posInf
  | negInf, num _ => negInf
  | posInf, posInf => posInf
  | negInf, negInf => negInf
  | posInf, negInf => nan
  | negInf, posInf => nan
  | nan, _ => nan
  | _, nan => nan

/-- JavaScript unary negation on numbers. -/
def neg : JsNum → JsNum
  | num a => num (-a)
  | posInf => negInf
  | negInf => posInf
  | nan => nan

/-- JavaScript binary `-` on numbers. -/
def sub (a b : JsNum) : JsNum := add a (neg b)

/-- JavaScript `*` on numbers. -/
def mul : JsNum → JsNum → JsNum
  | num a, num b => num (a * b)
  | nan, _ => nan
  | _, nan => nan
  | posInf, posInf => posInf
  | posInf, negInf => negInf
  | negInf, posInf => negInf
  | negInf, negInf => posInf
  | posInf, num b => if b = 0 then nan else if 0 < b then posInf else negInf
  | negInf, num b => if b = 0 then nan else if 0 < b then negInf else posInf
  | num a, posInf => if a = 0 then nan else if 0 < a then posInf else negInf
  | num a, negInf => if a = 0 then nan else if 0 < a then negInf else posInf

/-- JavaScript `/` on numbers (the zero denominator is treated as `+0`,
matching the values that reach the divisions modelled here). -/
def div : JsNum → JsNum → JsNum
  | num a, num b =>
      if b = 0 then (if a = 0 then nan else if 0 < a then posInf else negInf)
      else num (a / b)
  | nan, _ => nan
  | _, nan => nan
  | posInf, posInf => nan
  | posInf, negInf => nan
  | negInf, posInf => nan
  | negInf, negInf => nan
  | posInf, num b => if 0 ≤ b then posInf else negInf
  | negInf, num b => if 0 ≤ b then negInf else posInf
  | num _, posInf => num 0
  | num _, negInf => num 0

/-- JavaScript `<` on numbers (`false` whenever `NaN` is involved). -/
def lt : JsNum → JsNum → Bool
  | nan, _ => false
  | _, nan => false
  | num a, num b => decide (a < b)
  | num _, posInf => true
  | num _, negInf => false
  | posInf, num _ => false
  | negInf, num _ => true
  | posInf, posInf => false
  | negInf, negInf => false
  | posInf, negInf => false
  | negInf, posInf => true

/-- JavaScript `<=` on numbers (`false` whenever `NaN` is involved). -/
def le : JsNum → JsNum → Bool
  | nan, _ => false
  | _, nan => false
  | num a, num b => decide (a ≤ b)
  | num _, posInf => true
  | num _, negInf => false
  | posInf, num _ => false
  | negInf, num _ => true
  | posInf, posInf => true
  | negInf, negInf => true
  | posInf, negInf => false
  | negInf, posInf => true

/-- `Math.max` (binary): `NaN` if either argument is `NaN`, else the larger. -/
def max (a b : JsNum) : JsNum :=
  if a.isNaNb || b.isNaNb then nan else if lt a b then b else a

/-- `Math.min` (binary): `NaN` if either argument is `NaN`, else the smaller. -/
def min (a b : JsNum) : JsNum :=
  if a.isNaNb || b.isNaNb then nan else if lt b a then b else a

/-- `Math.round`: nearest integer, halves rounding toward `+∞`. -/
def round : JsNum → JsNum
  | num q => num ((⌊q + 1/2⌋ : ℤ) : ℚ)
  | posInf => posInf
  | negInf => negInf
  | nan => nan

/-- `a || b` for numbers used as a defaulting idiom: keep `a` if truthy. -/
def orElse (a b : JsNum) : JsNum := if a.truthy then a else b

end JsNum

/-- `x || d` where the JavaScript property read may be `undefined`
(modelled as `none`): `undefined`, `0` and `NaN` all select the default. -/
def jsOrNum (x : Option JsNum) (d : JsNum) : JsNum :=
  match x with
  | some v => v.orElse d
  | none => d

/-- `s || d` for a possibly-`undefined` string: `undefined` and `""` select
the default. -/
def jsOrStr (x : Option String) (d : String) : String :=
  match x with
  | some s => if s = "" then d else s
  | none => d

/-! ## `parseFloat`

A model of JavaScript's `parseFloat`: skip leading white space, then read
the longest prefix that is an optionally signed decimal literal
(`Infinity`, `digits[.digits][exponent]` or `.digits[exponent]`), and
return `NaN` when there is none.  (Only ASCII white space is modelled.) -/

/-- ASCII white-space characters matched by JavaScript's `\s` and skipped
by `parseFloat`. -/
def isJsSpace (c : Char) : Bool :=
  c = ' ' || c = '\t' || c = '\n' || c = '\r' || c = Char.ofNat 11 || c = Char.ofNat 12

/-- Numeric value of a digit string read in base 10. -/
def digitsToNat (cs : List Char) : ℕ :=
  cs.foldl (fun acc c => acc * 10 + (c.toNat - '0'.toNat)) 0

/-- Value of an optional exponent part (`e`/`E`, optional sign, digits) at
the given position; the exponent contributes only when at least one digit
follows, as in `parseFloat`. -/
def exponentValue (cs : List Char) : ℤ :=
  if cs.headD ' ' == 'e' || cs.headD ' ' == 'E' then
    let t := cs.tail
    let esgn : Bool := t.headD ' ' == '-'
    let ds := if t.headD ' ' == '-' || t.headD ' ' == '+' then t.tail else t
    let ed := ds.takeWhile Char.isDigit
    if ed.isEmpty then 0
    else if esgn then -(digitsToNat ed : ℤ) else (digitsToNat ed : ℤ)
  else 0

/-- Scale a rational by a signed power of ten. -/
def scalePow10 (q : ℚ) (e : ℤ) : ℚ :=
  if 0 ≤ e then q * (10 : ℚ) ^ e.toNat else q / (10 : ℚ) ^ (-e).toNat

/-- The part of `parseFloat` after white space and sign have been
consumed: `Infinity` literal, or digits, optional fraction and optional
exponent, with the sign applied to the result. -/
def parseFloatBody (sgn : Bool) (cs2 : List Char) : JsNum :=
  if cs2.take 8 = "Infinity".toList then
    if sgn then JsNum.negInf else JsNum.posInf
  else
    let ip := cs2.takeWhile Char.isDigit
    let r1 := cs2.dropWhile Char.isDigit
    let fp := if r1.headD ' ' == '.' then r1.tail.takeWhile Char.isDigit else []
    let r2 := if r1.headD ' ' == '.' then r1.tail.dropWhile Char.isDigit else r1
    if ip.isEmpty && fp.isEmpty then JsNum.nan
    else
      let mag : ℚ := (digitsToNat ip : ℚ) + (digitsToNat fp : ℚ) / (10 : ℚ) ^ fp.length
      let v := scalePow10 mag (exponentValue r2)
      JsNum.num (if sgn then -v else v)

/-- `parseFloat` on an exploded string. -/
def parseFloatList (cs0 : List Char) : JsNum :=
  let cs1 := cs0.dropWhile isJsSpace
  let sgn : Bool := cs1.headD ' ' == '-'
  let cs2 : List Char :=
    if cs1.headD ' ' == '-' || cs1.headD ' ' == '+' then cs1.tail else cs1
  parseFloatBody sgn cs2

/-- `parseFloat` on a string. -/
def parseFloat (s : String) : JsNum := parseFloatList s.toList

/-! ## `evaluateExpression` (src/unnamed/part_011, lines 12-55)

```js
const cleanExpression = expression.replace(/\s/g, "");
const mathPattern = /^(-?\d*\.?\d+)([\+\-\*\/])(-?\d*\.?\d+)$/;
```
The anchored pattern `^(G1)(G2)(G3)$` with `G2` a single character class
matches exactly the strings that split as `l ++ [op] ++ r` with
`l, r ∈ L(-?\d*\.?\d+)` and `op` one of `+ - * /`; such a split is unique
(proved below), so a left-to-right scan is a faithful matcher. -/

/-- `expression.replace(/\s/g, "")`. -/
def removeSpaces (cs : List Char) : List Char := cs.filter (fun c => !isJsSpace c)

/-- The operator character class `[\+\-\*\/]`. -/
def isOpChar (c : Char) : Bool := c = '+' || c = '-' || c = '*' || c = '/'

/-- Characters allowed in the body of the numeral pattern. -/
def isDigitOrDot (c : Char) : Bool := c.isDigit || c = '.'

/-- Language of `\d*\.?\d+`: nonempty strings of digits with at most one
dot, not ending in a dot. -/
def isNumCore (cs : List Char) : Bool :=
  !cs.isEmpty && cs.all isDigitOrDot && decide (cs.count '.' ≤ 1) &&
    (match cs.getLast? with
     | some c => c.isDigit
     | none => false)

/-- Language of `-?\d*\.?\d+`. -/
def isNumTok (cs : List Char) : Bool :=
  match cs with
  | [] => false
  | c :: rest => if c = '-' then isNumCore rest else isNumCore (c :: rest)

/-- Left-to-right scan for the (unique) split of a string as
`number operator number`; `pre` holds the already-scanned prefix
reversed. -/
def findSplitAux : List Char → List Char → Option (List Char × Char × List Char)
  | _, [] => none
  | pre, c :: rest =>
      if isOpChar c && isNumTok pre.reverse && isNumTok rest then
        some (pre.reverse, c, rest)
      else
        findSplitAux (c :: pre) rest

/-- Matcher for `^(-?\d*\.?\d+)([\+\-\*\/])(-?\d*\.?\d+)$` returning the
three capture groups. -/
def matchMathPattern (cs : List Char) : Option (List Char × Char × List Char) :=
  findSplitAux [] cs

/-- `evaluateExpression` (src/unnamed/part_011): evaluate a single binary
operation on decimal numerals, fall back to `parseFloat` on the cleaned
string, `null` (`none`) on `NaN` and on division by zero. -/
def evaluateExpression (expression : String) : Option JsNum :=
  if expression = "" then none
  else
    let cleanExpression := removeSpaces expression.toList
    match matchMathPattern cleanExpression with
    | some (leftStr, operator, rightStr) =>
        let left := parseFloatList leftStr
        let right := parseFloatList rightStr
        if left.isNaNb || right.isNaNb then none
        else if operator = '+' then some (left.add right)
        else if operator = '-' then some (left.sub right)
        else if operator = '*' then some (left.mul right)
        else if operator = '/' then
          if right = JsNum.num 0 then none else some (left.div right)
        else none
    | none =>
        let n := parseFloatList cleanExpression
        if n.isNaNb then none else some n

/-! ### Signed decimal numerals

A structured form of the operand language `-?\d*\.?\d+`, used to
quantify over "optionally signed finite decimal numerals". -/

/-- A signed decimal numeral: optional minus sign, integer digits,
optional dot followed by fraction digits. -/
structure DecNumeral where
  neg : Bool
  intDigits : List Char
  hasDot : Bool
  fracDigits : List Char

namespace DecNumeral

/-- Well-formedness, mirroring the shapes generated by `-?\d*\.?\d+`:
all characters are digits; without a dot the integer part is nonempty and
the fraction empty; with a dot the fraction part is nonempty. -/
def wf (n : DecNumeral) : Bool :=
  n.intDigits.all Char.isDigit && n.fracDigits.all Char.isDigit &&
    (if n.hasDot then !n.fracDigits.isEmpty
     else !n.intDigits.isEmpty && n.fracDigits.isEmpty)

/-- The numeral as a character string. -/
def render (n : DecNumeral) : List Char :=
  (if n.neg then ['-'] else []) ++ n.intDigits ++
    (if n.hasDot then ['.'] else []) ++ n.fracDigits

/-- The rational value the numeral denotes. -/
def val (n : DecNumeral) : ℚ :=
  let base : ℚ :=
    (digitsToNat n.intDigits : ℚ) +
      (digitsToNat n.fracDigits : ℚ) / (10 : ℚ) ^ n.fracDigits.length
  if n.neg then -base else base

end DecNumeral


/-! ## `roundToThousandth` and `processInputValue` (src/unnamed/part_011) -/

/-- `roundToThousandth(num)` (lines 80-82): `Math.round(num * 1000) / 1000`. -/
def roundToThousandth (n : JsNum) : JsNum :=
  JsNum.div (JsNum.round (JsNum.mul n (JsNum.num 1000))) (JsNum.num 1000)

/-- Lines 100-106: `evaluateExpression` first, `parseFloat` fallback. -/
def parsedInput (inputValue : String) : JsNum :=
  match evaluateExpression inputValue with
  | some v => v
  | none => parseFloat inputValue

/-- `processInputValue(inputValue, min, max, positiveOnly)` (lines 94-122):
expression evaluation with plain-parse fallback, `NaN` rejection,
positive-only rejection, clamping and rounding.  The source defaults are
`min = -Infinity`, `max = Infinity`, `positiveOnly = false`. -/
def processInputValue (inputValue : String) (min max : JsNum)
    (positiveOnly : Bool) : Option JsNum :=
  let newValue : JsNum := parsedInput inputValue
  if !newValue.isNaNb then
    if positiveOnly && JsNum.le newValue (JsNum.num 0) then none
    else some (roundToThousandth (JsNum.max min (JsNum.min max newValue)))
  else none

/-! ## SVG load normalization (src/unnamed/part_008, `applyLoadedSvg`, lines 798-840)

The numeric core of `applyLoadedSvg`: `vbWidth` and `vbHeight` are the
third and fourth space-separated `viewBox` components converted by
`Number` (`NaN` when unparsable, modelled as `JsNum.nan`). -/

structure SvgNormResult where
  normalizeScale : JsNum
  normalizedWidth : JsNum
  normalizedHeight : JsNum

/-- Lines 808-814 of src/unnamed/part_008:
`maxDimension = Math.max(vbWidth || 0, vbHeight || 0) || 1`,
`normalizeScale = maxDimension < 10 ? targetSize / maxDimension : 1`,
`normalizedWidth/Height = (vb || default) * normalizeScale`. -/
def applyLoadedSvgNorm (vbWidth vbHeight : JsNum) : SvgNormResult :=
  let targetSize : JsNum := JsNum.num 1000
  let maxDimension :=
    JsNum.orElse
      (JsNum.max (JsNum.orElse vbWidth (JsNum.num 0)) (JsNum.orElse vbHeight (JsNum.num 0)))
      (JsNum.num 1)
  let normalizeScale :=
    if JsNum.lt maxDimension (JsNum.num 10)
    then JsNum.div targetSize maxDimension
    else JsNum.num 1
  { normalizeScale := normalizeScale
    normalizedWidth := JsNum.mul (JsNum.orElse vbWidth (JsNum.num 600)) normalizeScale
    normalizedHeight := JsNum.mul (JsNum.orElse vbHeight (JsNum.num 400)) normalizeScale }

/-! ## Camera utilities (src/topography-builder/frontend/src/utils/cameraUtils.js)

The container element is represented by its `getBoundingClientRect()`
rectangle; both functions are modelled with the container and (where
applicable) the event present, which is the regime the claims describe. -/

structure Camera where
  minX : ℚ
  minY : ℚ
  width : ℚ
  height : ℚ

structure ClientRect where
  left : ℚ
  top : ℚ
  width : ℚ
  height : ℚ

structure MouseEvt where
  clientX : ℚ
  clientY : ℚ

structure BaseSize where
  width : ℚ
  height : ℚ

/-- `clientToSvgUnits(containerEl, camera, evt)` (lines 4-13). -/
def clientToSvgUnits (rect : ClientRect) (camera : Camera) (evt : MouseEvt) : ℚ × ℚ :=
  let rx := (evt.clientX - rect.left) / rect.width
  let ry := (evt.clientY - rect.top) / rect.height
  (camera.minX + rx * camera.width, camera.minY + ry * camera.height)

/-- `computeZoomedCamera(baseSize, camera, newZoom, containerEl, mouseEvent)`
(lines 16-41). -/
def computeZoomedCamera (baseSize : BaseSize) (camera : Camera) (newZoom : ℚ)
    (rect : ClientRect) (mouseEvent : Option MouseEvt) : Camera :=
  let newW := baseSize.width / newZoom
  let newH := baseSize.height / newZoom
  match mouseEvent with
  | some evt =>
      let rx := (evt.clientX - rect.left) / rect.width
      let ry := (evt.clientY - rect.top) / rect.height
      { minX := camera.minX + (camera.width - newW) * rx
        minY := camera.minY + (camera.height - newH) * ry
        width := newW
        height := newH }
  | none =>
      { minX := camera.minX + (camera.width - newW) / 2
        minY := camera.minY + (camera.height - newH) / 2
        width := newW
        height := newH }

/-! ## Editor zoom (src/unnamed/part_008, `handleZoom`, lines 1397-1414) -/

/-- One zoom step on the zoom factor:
`newZoom = Math.max(0.1, Math.min(5, prevZoom * (direction === "in" ? 1.1 : 0.9)))`. -/
def handleZoomStep (zoomIn : Bool) (prevZoom : ℚ) : ℚ :=
  let zoomFactor : ℚ := if zoomIn then 1.1 else 0.9
  Max.max (0.1 : ℚ) (Min.min (5 : ℚ) (prevZoom * zoomFactor))

/-! ## Selection styling (src/unnamed/part_008, lines 1416-1502)

A selectable element is modelled by the attributes this code touches.
`getAttribute` returning `null` is `none`; JavaScript truthiness of the
returned value (`null` and `""` are falsy) is `attrTruthy`. -/

structure EditorElement where
  stroke : Option String
  strokeWidth : Option String
  dataOriginalStroke : Option String
  dataOriginalStrokeWidth : Option String
  dataSelected : Option String
  styleFilter : String

/-- Truthiness of a `getAttribute` result. -/
def attrTruthy : Option String → Bool
  | some s => !(s == "")
  | none => false

/-- `a || b || d` over two attribute reads, as in `clearSelection`. -/
def jsOrAttr2 (a b : Option String) (d : String) : String :=
  match a with
  | some s => if s = "" then jsOrStr b d else s
  | none => jsOrStr b d

/-- Number of times `p` divides `n` (fuel-bounded). -/
def factorMult (p : ℕ) : ℕ → ℕ → ℕ
  | 0, _ => 0
  | fuel + 1, n =>
      if 2 ≤ p ∧ n ≠ 0 ∧ n % p = 0 then factorMult p fuel (n / p) + 1 else 0

/-- Left-pad a digit string with zeros to the given width. -/
def padZeros (s : String) (k : ℕ) : String :=
  String.mk (List.replicate (k - s.length) '0') ++ s

/-- `Number.prototype.toString` for the values arising here: specials by
name, integers in plain decimal, decimal-terminating rationals as a
decimal (JavaScript's shortest form), any other rational — which double
arithmetic never produces — as `num/den`. -/
def jsNumToString (v : JsNum) : String :=
  match v with
  | .nan => "NaN"
  | .posInf => "Infinity"
  | .negInf => "-Infinity"
  | .num q =>
      let sign := if q < 0 then "-" else ""
      let n := q.num.natAbs
      let d := q.den
      if d = 1 then sign ++ toString n
      else
        let a := factorMult 2 d d
        let b := factorMult 5 d d
        let k := Max.max a b
        if d = 2 ^ a * 5 ^ b then
          let scaled := n * 10 ^ k / d
          sign ++ toString (scaled / 10 ^ k) ++ "." ++
            padZeros (toString (scaled % 10 ^ k)) k
        else sign ++ toString n ++ "/" ++ toString d

/-- `applySelectionStyle(el)` (lines 1454-1491), element-level effect:
record the pre-selection `stroke`/`stroke-width` in the shadow attributes
when those are not already set, then force the highlight stroke, a 1.5x
stroke width and the drop-shadow filter.  (The hover-overlay cleanup the
function also performs touches other state, not this element.) -/
def applySelectionStyle (el : EditorElement) : EditorElement :=
  let el1 :=
    if !(attrTruthy el.dataOriginalStroke)
    then { el with dataOriginalStroke := some (jsOrStr el.stroke "#000000") }
    else el
  let el2 :=
    if !(attrTruthy el1.dataOriginalStrokeWidth)
    then { el1 with dataOriginalStrokeWidth := some (jsOrStr el1.strokeWidth "1") }
    else el1
  let currentWidth := parseFloat (jsOrStr el2.strokeWidth "1")
  let selectionWidth := JsNum.mul currentWidth (JsNum.num 1.5)
  { el2 with
    dataSelected := some "true"
    stroke := some "#00a3ff"
    strokeWidth := some (jsNumToString selectionWidth)
    styleFilter := "drop-shadow(0 0 4px rgba(0, 163, 255, 0.8))" }

/-- `removeSelectionStyle(el)` (lines 1494-1502). -/
def removeSelectionStyle (el : EditorElement) : EditorElement :=
  { el with
    dataSelected := none
    stroke := some (jsOrStr el.dataOriginalStroke "#000000")
    strokeWidth := some (jsOrStr el.dataOriginalStrokeWidth "1")
    styleFilter := "" }

/-- The per-element restoration performed by `clearSelection` (lines
1430-1448): fall back to the current attribute before the hard default. -/
def clearSelectionRestore (el : EditorElement) : EditorElement :=
  { el with
    dataSelected := none
    stroke := some (jsOrAttr2 el.dataOriginalStroke el.stroke "#000000")
    strokeWidth := some (jsOrAttr2 el.dataOriginalStrokeWidth el.strokeWidth "1")
    styleFilter := "" }

/-! ## `intersectsRect` (src/topography-builder/frontend/src/utils/svgUtils.js, lines 66-73) -/

structure Bounds where
  minX : ℚ
  minY : ℚ
  maxX : ℚ
  maxY : ℚ

structure RectWH where
  x : ℚ
  y : ℚ
  width : ℚ
  height : ℚ

/-- `intersectsRect(a, b)`: `!(a.maxX < b.x || a.minX > b.x + b.width ||
a.maxY < b.y || a.minY > b.y + b.height)`. -/
def intersectsRect (a : Bounds) (b : RectWH) : Bool :=
  !(decide (a.maxX < b.x) || decide (a.minX > b.x + b.width) ||
    decide (a.maxY < b.y) || decide (a.minY > b.y + b.height))

/-! ## Upload service (src/topography-builder/frontend/src/services/uploadService.js)

`uploadFile` and `uploadFileSVG` first check the file size against
`FILE_CONFIG.MAX_FILE_SIZE` and reject before any `XMLHttpRequest` is
constructed; otherwise they build the form data (with `||`-defaulting of
every parameter) and send it.  The synchronous prefix of each function is
modelled as a value: either the size rejection, or the request that is
opened and sent. -/

/-- `FILE_CONFIG.MAX_FILE_SIZE` (frontend constants): `100 * 1024 * 1024`. -/
def MAX_FILE_SIZE : ℕ := 100 * 1024 * 1024

structure UploadFileInfo where
  name : String
  size : ℕ

/-- The parameter object: every property read may be `undefined`. -/
structure UploadParams where
  contourLevels : Option JsNum
  rotationX : Option JsNum
  rotationY : Option JsNum
  rotationZ : Option JsNum
  translationX : Option JsNum
  translationY : Option JsNum
  translationZ : Option JsNum
  pivotX : Option JsNum
  pivotY : Option JsNum
  pivotZ : Option JsNum
  scale : Option JsNum
  lineWidth : Option JsNum
  engine : Option String

/-- The fields appended to the `FormData` by `uploadFile` (lines 16-31). -/
structure UploadFormData where
  contour_levels : JsNum
  rotation_x : JsNum
  rotation_y : JsNum
  rotation_z : JsNum
  translation_x : JsNum
  translation_y : JsNum
  translation_z : JsNum
  pivot_x : JsNum
  pivot_y : JsNum
  pivot_z : JsNum
  scale : JsNum
  engine : String

/-- The fields appended by `uploadFileSVG` (lines 102-118): the same plus
`line_width`. -/
structure UploadFormDataSVG where
  contour_levels : JsNum
  rotation_x : JsNum
  rotation_y : JsNum
  rotation_z : JsNum
  translation_x : JsNum
  translation_y : JsNum
  translation_z : JsNum
  pivot_x : JsNum
  pivot_y : JsNum
  pivot_z : JsNum
  scale : JsNum
  line_width : JsNum
  engine : String

def buildUploadFormData (p : UploadParams) : UploadFormData :=
  { contour_levels := jsOrNum p.contourLevels (JsNum.num 20)
    rotation_x := jsOrNum p.rotationX (JsNum.num 0)
    rotation_y := jsOrNum p.rotationY (JsNum.num 0)
    rotation_z := jsOrNum p.rotationZ (JsNum.num 0)
    translation_x := jsOrNum p.translationX (JsNum.num 0)
    translation_y := jsOrNum p.translationY (JsNum.num 0)
    translation_z := jsOrNum p.translationZ (JsNum.num 0)
    pivot_x := jsOrNum p.pivotX (JsNum.num 0)
    pivot_y := jsOrNum p.pivotY (JsNum.num 0)
    pivot_z := jsOrNum p.pivotZ (JsNum.num 0)
    scale := jsOrNum p.scale (JsNum.num 1)
    engine := jsOrStr p.engine "trimesh" }

def buildUploadFormDataSVG (p : UploadParams) : UploadFormDataSVG :=
  { contour_levels := jsOrNum p.contourLevels (JsNum.num 20)
    rotation_x := jsOrNum p.rotationX (JsNum.num 0)
    rotation_y := jsOrNum p.rotationY (JsNum.num 0)
    rotation_z := jsOrNum p.rotationZ (JsNum.num 0)
    translation_x := jsOrNum p.translationX (JsNum.num 0)
    translation_y := jsOrNum p.translationY (JsNum.num 0)
    translation_z := jsOrNum p.translationZ (JsNum.num 0)
    pivot_x := jsOrNum p.pivotX (JsNum.num 0)
    pivot_y := jsOrNum p.pivotY (JsNum.num 0)
    pivot_z := jsOrNum p.pivotZ (JsNum.num 0)
    scale := jsOrNum p.scale (JsNum.num 1)
    line_width := jsOrNum p.lineWidth (JsNum.num 1)
    engine := jsOrStr p.engine "trimesh" }

/-- Outcome of `uploadFile`'s synchronous prefix: either the promise is
rejected on size before any request exists, or a request with the built
form data is opened and sent. -/
inductive UploadStart where
  | rejectedSize (message : String)
  | request (endpoint : String) (form : UploadFormData)

inductive UploadStartSVG where
  | rejectedSize (message : String)
  | request (endpoint : String) (form : UploadFormDataSVG)

/-- Whether the outcome is the pre-request size rejection. -/
def UploadStart.isRejectedSize : UploadStart → Bool
  | UploadStart.rejectedSize _ => true
  | UploadStart.request _ _ => false

def UploadStartSVG.isRejectedSize : UploadStartSVG → Bool
  | UploadStartSVG.rejectedSize _ => true
  | UploadStartSVG.request _ _ => false

/-- `uploadFile(file, parameters, onProgress)` (lines 4-86), synchronous
prefix. -/
def uploadFileStart (file : UploadFileInfo) (p : UploadParams) : UploadStart :=
  if file.size > MAX_FILE_SIZE then
    UploadStart.rejectedSize
      ("File size exceeds " ++
        jsNumToString
          (JsNum.div (JsNum.div (JsNum.num (MAX_FILE_SIZE : ℚ)) (JsNum.num 1024))
            (JsNum.num 1024)) ++ "MB limit")
  else UploadStart.request "/upload/" (buildUploadFormData p)

/-- `uploadFileSVG(file, parameters, onProgress)` (lines 90-169),
synchronous prefix. -/
def uploadFileSVGStart (file : UploadFileInfo) (p : UploadParams) : UploadStartSVG :=
  if file.size > MAX_FILE_SIZE then
    UploadStartSVG.rejectedSize
      ("File size exceeds " ++
        jsNumToString
          (JsNum.div (JsNum.div (JsNum.num (MAX_FILE_SIZE : ℚ)) (JsNum.num 1024))
            (JsNum.num 1024)) ++ "MB limit")
  else UploadStartSVG.request "/generate-map-svg" (buildUploadFormDataSVG p)

/-! ## Upload workflow hook (src/unnamed/part_006, `useFileUpload`) and
phase computation (src/unnamed/part_005, `getPhase`, lines 50-56)

`handleUpload` is split at its `await`: `handleUploadStart` is the
synchronous prefix executed before the request is issued, and
`handleUploadSettle` is the continuation run when the promise settles
(the `try`/`catch`/`finally` tail).  Blobs are abstract strings. -/

structure HookState where
  loading : Bool
  progress : ℚ
  error : String
  status : String
  resultImage : Option String
  resultBlob : Option String
  resultSvgBlob : Option String
  originalFileName : String
  selectedFile : Option UploadFileInfo

/-- `createPreviewUrl(blob)`: a fresh object URL for the blob. -/
def createPreviewUrl (blob : String) : String := "blob:" ++ blob

/-- Lines 24-40 of src/unnamed/part_006: clear any previous result, set
loading/progress/status, remember the uploaded file name. -/
def handleUploadStart (s : HookState) (file : UploadFileInfo) : HookState :=
  { s with
    resultImage := none
    resultBlob := none
    resultSvgBlob := none
    loading := true
    error := ""
    progress := 0
    status := "Uploading file..."
    originalFileName := file.name }

/-- Lines 42-70: on fulfilment store the preview URL and blob; on
rejection store the error message; either way `finally` clears
`loading`.  (The delayed `setStatus("")` timer on success is not part of
the settled state.) -/
def handleUploadSettle (s : HookState) (outcome : Except String String) : HookState :=
  match outcome with
  | Except.ok blob =>
      { s with
        status := "Processing complete!"
        resultImage := some (createPreviewUrl blob)
        resultBlob := some blob
        loading := false }
  | Except.error msg =>
      { s with error := msg, status := "", loading := false }

/-- `getPhase` (src/unnamed/part_005, lines 50-56). -/
def getPhase (s : HookState) : String :=
  if s.selectedFile.isNone then "upload"
  else if s.selectedFile.isSome && !s.loading && s.resultImage.isNone then "preview"
  else if s.loading then "loading"
  else if s.resultImage.isSome then "download"
  else "upload"

/-! ### Helper lemmas about the numeral language -/

theorem opChar_cases {c : Char} (h : isOpChar c = true) :
    c = '+' ∨ c = '-' ∨ c = '*' ∨ c = '/' := by
  simp only [isOpChar, Bool.or_eq_true, decide_eq_true_eq] at h
  tauto

theorem not_op_of_dod {c : Char} (h : isDigitOrDot c = true) : isOpChar c = false := by
  cases hop : isOpChar c
  · rfl
  · exfalso
    simp only [isDigitOrDot, Bool.or_eq_true, decide_eq_true_eq] at h
    rcases opChar_cases hop with hc | hc | hc | hc <;> subst hc <;>
      rcases h with h | h <;> revert h <;> decide

theorem dod_of_digit {c : Char} (h : c.isDigit = true) : isDigitOrDot c = true := by
  simp [isDigitOrDot, h]

/-- Every character after the first of a string in `L(-?\d*\.?\d+)` is a
digit or a dot. -/
theorem numTok_tail_dod {x : Char} {xs : List Char}
    (h : isNumTok (x :: xs) = true) : ∀ c ∈ xs, isDigitOrDot c = true := by
  intro c hc
  simp only [isNumTok] at h
  by_cases hx : x = '-'
  · rw [if_pos hx] at h
    simp only [isNumCore, Bool.and_eq_true, List.all_eq_true] at h
    exact h.1.1.2 c hc
  · rw [if_neg hx] at h
    simp only [isNumCore, Bool.and_eq_true, List.all_eq_true] at h
    exact h.1.1.2 c (List.mem_cons_of_mem _ hc)

/-- The first character of a string in `L(-?\d*\.?\d+)` is a minus sign,
a digit or a dot. -/
theorem numTok_head {x : Char} {xs : List Char}
    (h : isNumTok (x :: xs) = true) : x = '-' ∨ isDigitOrDot x = true := by
  simp only [isNumTok] at h
  by_cases hx : x = '-'
  · exact Or.inl hx
  · rw [if_neg hx] at h
    simp only [isNumCore, Bool.and_eq_true, List.all_eq_true] at h
    exact Or.inr (h.1.1.2 x (List.mem_cons_self _ _))

/-- The scan finds the split of a well-formed `number op number` string,
whatever valid prefix has been accumulated. -/
theorem findSplitAux_eq : ∀ (l : List Char) (pre : List Char) (op : Char) (r : List Char),
    isNumTok (pre.reverse ++ l) = true → isOpChar op = true → isNumTok r = true →
    findSplitAux pre (l ++ op :: r) = some (pre.reverse ++ l, op, r) := by
  intro l
  induction l with
  | nil =>
      intro pre op r hl hop hr
      simp only [List.append_nil] at hl ⊢
      simp [findSplitAux, hl, hop, hr]
  | cons c l' ih =>
      intro pre op r hl hop hr
      have hcond : (isOpChar c && isNumTok pre.reverse && isNumTok (l' ++ op :: r)) = false := by
        by_cases hc : isOpChar c = true
        · -- `c` is an operator character inside the left numeral: only
          -- possible as a leading minus sign, where the prefix is empty.
          cases hpre : pre.reverse with
          | nil =>
              rw [hpre] at hl
              simp only [List.nil_append] at hl
              rcases numTok_head hl with hminus | hdod
              · subst hminus
                simp [isNumTok, hpre]
              · exact absurd hc (by simp [not_op_of_dod hdod])
          | cons p ps =>
              rw [hpre, List.cons_append] at hl
              exact absurd hc
                (by simp [not_op_of_dod (numTok_tail_dod hl c (by simp))])
        · simp [Bool.eq_false_iff.mpr hc]
      have step : findSplitAux pre ((c :: l') ++ op :: r)
          = findSplitAux (c :: pre) (l' ++ op :: r) := by
        simp only [List.cons_append, findSplitAux, List.append_eq]
        rw [hcond]
        simp
      rw [step]
      have hl' : isNumTok ((c :: pre).reverse ++ l') = true := by
        simpa [List.append_assoc] using hl
      rw [ih (c :: pre) op r hl' hop hr]
      simp

theorem takeWhile_all_eq {p : Char → Bool} {xs : List Char}
    (h : ∀ c ∈ xs, p c = true) : xs.takeWhile p = xs :=
  List.takeWhile_eq_self_iff.mpr h

theorem dropWhile_all_eq {p : Char → Bool} {xs : List Char}
    (h : ∀ c ∈ xs, p c = true) : xs.dropWhile p = [] :=
  List.dropWhile_eq_nil_iff.mpr h

theorem takeWhile_append_stop {p : Char → Bool} :
    ∀ (xs : List Char) (y : Char) (ys : List Char),
    (∀ c ∈ xs, p c = true) → p y = false → (xs ++ y :: ys).takeWhile p = xs := by
  intro xs
  induction xs with
  | nil => intro y ys _ hy; simp [List.takeWhile_cons, hy]
  | cons x xt ih =>
      intro y ys hall hy
      have hx : p x = true := hall x (by simp)
      simp [List.takeWhile_cons, hx, ih y ys (fun c hc => hall c (by simp [hc])) hy]

theorem dropWhile_append_stop {p : Char → Bool} :
    ∀ (xs : List Char) (y : Char) (ys : List Char),
    (∀ c ∈ xs, p c = true) → p y = false → (xs ++ y :: ys).dropWhile p = y :: ys := by
  intro xs
  induction xs with
  | nil => intro y ys _ hy; simp [List.dropWhile_cons, hy]
  | cons x xt ih =>
      intro y ys hall hy
      have hx : p x = true := hall x (by simp)
      simp [List.dropWhile_cons, hx, ih y ys (fun c hc => hall c (by simp [hc])) hy]

theorem getLast?_all {p : Char → Bool} {cs : List Char} {x : Char}
    (h : ∀ c ∈ cs, p c = true) (hx : cs.getLast? = some x) : p x = true := by
  rcases List.mem_getLast?_eq_getLast (l := cs) (x := x) hx with ⟨hne, hxe⟩
  subst hxe
  exact h _ (List.getLast_mem hne)

theorem digit_ne_of_isDigit {c : Char} (h : c.isDigit = true) :
    c ≠ '-' ∧ c ≠ '+' ∧ c ≠ '.' ∧ c ≠ 'I' ∧ isJsSpace c = false := by
  refine ⟨?_, ?_, ?_, ?_, ?_⟩
  · intro hc; subst hc; exact absurd h (by decide)
  · intro hc; subst hc; exact absurd h (by decide)
  · intro hc; subst hc; exact absurd h (by decide)
  · intro hc; subst hc; exact absurd h (by decide)
  · cases hs : isJsSpace c
    · rfl
    · exfalso
      simp only [isJsSpace, Bool.or_eq_true, decide_eq_true_eq] at hs
      rcases hs with ((((hc | hc) | hc) | hc) | hc) | hc <;> subst hc <;>
        exact absurd h (by decide)

theorem isNumCore_digits {cs : List Char} (hne : cs ≠ [])
    (h : ∀ c ∈ cs, c.isDigit = true) : isNumCore cs = true := by
  simp only [isNumCore, Bool.and_eq_true, List.all_eq_true]
  refine ⟨⟨⟨by simpa using hne, fun c hc => dod_of_digit (h c hc)⟩, ?_⟩, ?_⟩
  · have h0 : cs.count '.' = 0 :=
      List.count_eq_zero.mpr (fun hmem => absurd (h _ hmem) (by decide))
    simp [h0]
  · cases hcs : cs.getLast? with
    | none => rw [List.getLast?_eq_getLast_of_ne_nil hne] at hcs; simp at hcs
    | some x => simpa using getLast?_all h hcs

theorem isNumCore_dotted {intd frac : List Char}
    (hint : ∀ c ∈ intd, c.isDigit = true) (hfrac : ∀ c ∈ frac, c.isDigit = true)
    (hfne : frac ≠ []) : isNumCore (intd ++ '.' :: frac) = true := by
  simp only [isNumCore, Bool.and_eq_true, List.all_eq_true]
  refine ⟨⟨⟨by simp, ?_⟩, ?_⟩, ?_⟩
  · intro c hc
    rcases List.mem_append.mp hc with hc | hc
    · exact dod_of_digit (hint c hc)
    · rcases List.mem_cons.mp hc with rfl | hc
      · decide
      · exact dod_of_digit (hfrac c hc)
  · have h1 : intd.count '.' = 0 :=
      List.count_eq_zero.mpr (fun hmem => absurd (hint _ hmem) (by decide))
    have h2 : frac.count '.' = 0 :=
      List.count_eq_zero.mpr (fun hmem => absurd (hfrac _ hmem) (by decide))
    rw [List.count_append]
    simp [h1, h2, List.count_cons]
  · have hstep : ('.' :: frac).getLast? = frac.getLast? := by
      cases frac with
      | nil => exact absurd rfl hfne
      | cons f fs => rw [List.getLast?_cons_cons]
    rw [List.getLast?_append_of_ne_nil _ (by simp), hstep]
    cases hcs : frac.getLast? with
    | none => rw [List.getLast?_eq_getLast_of_ne_nil hfne] at hcs; simp at hcs
    | some x => simpa using getLast?_all hfrac hcs

/-- The characters of a numeral's rendering after the optional sign. -/
theorem render_body_dod {n : DecNumeral} (h : n.wf = true) :
    ∀ c ∈ n.intDigits ++ (if n.hasDot then ['.'] else []) ++ n.fracDigits,
      isDigitOrDot c = true := by
  simp only [DecNumeral.wf, Bool.and_eq_true, List.all_eq_true] at h
  obtain ⟨⟨hint, hfrac⟩, _⟩ := h
  intro c hc
  rcases List.mem_append.mp hc with hc | hc
  · rcases List.mem_append.mp hc with hc | hc
    · exact dod_of_digit (hint c hc)
    · cases hdot : n.hasDot <;> rw [hdot] at hc <;> simp at hc
      subst hc; decide
  · exact dod_of_digit (hfrac c hc)

/-- The numeral body (rendering without the sign) satisfies the core
pattern `\d*\.?\d+`. -/
theorem isNumCore_body {n : DecNumeral} (h : n.wf = true) :
    isNumCore (n.intDigits ++ (if n.hasDot then ['.'] else []) ++ n.fracDigits)
      = true := by
  obtain ⟨neg, intd, hasDot, frac⟩ := n
  simp only [DecNumeral.wf, Bool.and_eq_true, List.all_eq_true] at h
  obtain ⟨⟨hint, hfrac⟩, hshape⟩ := h
  cases hasDot
  · obtain ⟨hine, hfe⟩ : intd ≠ [] ∧ frac = [] := by simpa using hshape
    have hgoal : intd ++ (if (false : Bool) then ['.'] else []) ++ frac = intd := by
      simp [hfe]
    rw [hgoal]
    exact isNumCore_digits hine hint
  · have hfne : frac ≠ [] := by simpa using hshape
    have hgoal : intd ++ (if (true : Bool) then ['.'] else []) ++ frac
        = intd ++ '.' :: frac := by simp
    rw [hgoal]
    exact isNumCore_dotted hint hfrac hfne

theorem numTok_render {n : DecNumeral} (h : n.wf = true) : isNumTok n.render = true := by
  have hcore := isNumCore_body h
  have hcoreR := hcore
  rw [List.append_assoc] at hcoreR
  cases hneg : n.neg
  · -- no sign: the body itself must not start with '-'
    have hre : n.render = n.intDigits ++ (if n.hasDot then ['.'] else []) ++ n.fracDigits := by
      simp [DecNumeral.render, hneg]
    rw [hre]
    cases hcase : n.intDigits ++ (if n.hasDot then ['.'] else []) ++ n.fracDigits with
    | nil => rw [hcase] at hcore; simp [isNumCore] at hcore
    | cons b bt =>
        have hb : isDigitOrDot b = true := by
          have hdod := render_body_dod h b
          rw [hcase] at hdod
          exact hdod (by simp)
        have hbne : b ≠ '-' := by
          intro hbe; subst hbe; exact absurd hb (by decide)
        rw [hcase] at hcore
        simp [isNumTok, hbne, hcore]
  · have hre : n.render
        = '-' :: (n.intDigits ++ (if n.hasDot then ['.'] else []) ++ n.fracDigits) := by
      simp [DecNumeral.render, hneg]
    rw [hre]
    simp [isNumTok, hcoreR]

theorem findSplitAux_none_of_dod :
    ∀ (cs pre : List Char), (∀ c ∈ cs, isDigitOrDot c = true) →
      findSplitAux pre cs = none := by
  intro cs
  induction cs with
  | nil => intro pre _; rfl
  | cons c ct ih =>
      intro pre h
      have hc : isOpChar c = false := not_op_of_dod (h c (by simp))
      simp only [findSplitAux, hc, Bool.false_and, Bool.false_eq_true, if_false]
      exact ih (c :: pre) (fun d hd => h d (by simp [hd]))

/-- A lone numeral contains no `number op number` split. -/
theorem matchMathPattern_render_none {n : DecNumeral} (h : n.wf = true) :
    matchMathPattern n.render = none := by
  have hdod := render_body_dod h
  cases hneg : n.neg
  · have hre : n.render = n.intDigits ++ (if n.hasDot then ['.'] else []) ++ n.fracDigits := by
      simp [DecNumeral.render, hneg]
    rw [matchMathPattern, hre]
    exact findSplitAux_none_of_dod _ [] hdod
  · have hre : n.render
        = '-' :: (n.intDigits ++ (if n.hasDot then ['.'] else []) ++ n.fracDigits) := by
      simp [DecNumeral.render, hneg]
    rw [matchMathPattern, hre]
    have hstep : findSplitAux []
        ('-' :: (n.intDigits ++ (if n.hasDot then ['.'] else []) ++ n.fracDigits))
        = findSplitAux ['-']
            (n.intDigits ++ (if n.hasDot then ['.'] else []) ++ n.fracDigits) := by
      simp [findSplitAux, isNumTok]
    rw [hstep]
    exact findSplitAux_none_of_dod _ ['-'] hdod

theorem take8_ne_inf {b : Char} (bt : List Char) (hb : b ≠ 'I') :
    (b :: bt).take 8 ≠ "Infinity".toList := by
  intro hco
  have h2 := congrArg (fun l => l.headD ' ') hco
  simp only [List.take_succ_cons, List.headD_cons] at h2
  exact hb (by simpa using h2)

theorem parseFloatBody_digits (sgnb : Bool) {ds : List Char} (hne : ds ≠ [])
    (h : ∀ c ∈ ds, c.isDigit = true) :
    parseFloatBody sgnb ds
      = JsNum.num (if sgnb then -(digitsToNat ds : ℚ) else (digitsToNat ds : ℚ)) := by
  obtain ⟨d, dt, rfl⟩ : ∃ d dt, ds = d :: dt := by
    cases ds with
    | nil => exact absurd rfl hne
    | cons d dt => exact ⟨d, dt, rfl⟩
  obtain ⟨_, _, _, hdI, _⟩ := digit_ne_of_isDigit (h d (by simp))
  have e3 := take8_ne_inf dt hdI
  have e4 : (d :: dt).takeWhile Char.isDigit = d :: dt := takeWhile_all_eq h
  have e5 : (d :: dt).dropWhile Char.isDigit = [] := dropWhile_all_eq h
  simp only [parseFloatBody, e3, if_false, e4, e5]
  simp [exponentValue, scalePow10, digitsToNat]

theorem parseFloatBody_dotted (sgnb : Bool) {intd frac : List Char}
    (hint : ∀ c ∈ intd, c.isDigit = true) (hfrac : ∀ c ∈ frac, c.isDigit = true)
    (hfne : frac ≠ []) :
    parseFloatBody sgnb (intd ++ '.' :: frac)
      = JsNum.num
          (if sgnb
           then -((digitsToNat intd : ℚ) + (digitsToNat frac : ℚ) / (10 : ℚ) ^ frac.length)
           else (digitsToNat intd : ℚ) + (digitsToNat frac : ℚ) / (10 : ℚ) ^ frac.length) := by
  obtain ⟨b, bt, hbody, hbI⟩ :
      ∃ b bt, intd ++ '.' :: frac = b :: bt ∧ b ≠ 'I' := by
    cases intd with
    | nil => exact ⟨'.', frac, rfl, by decide⟩
    | cons d dt =>
        obtain ⟨_, _, _, hdI, _⟩ := digit_ne_of_isDigit (hint d (by simp))
        exact ⟨d, dt ++ '.' :: frac, by simp, hdI⟩
  have e3 : (intd ++ '.' :: frac).take 8 ≠ "Infinity".toList := by
    rw [hbody]; exact take8_ne_inf bt hbI
  have e4 : (intd ++ '.' :: frac).takeWhile Char.isDigit = intd :=
    takeWhile_append_stop intd '.' frac hint (by decide)
  have e5 : (intd ++ '.' :: frac).dropWhile Char.isDigit = '.' :: frac :=
    dropWhile_append_stop intd '.' frac hint (by decide)
  have e6 : frac.takeWhile Char.isDigit = frac := takeWhile_all_eq hfrac
  have e7 : frac.dropWhile Char.isDigit = [] := dropWhile_all_eq hfrac
  have e8 : frac.isEmpty = false := by simpa using hfne
  simp only [parseFloatBody, e3, if_false, e4, e5, List.headD_cons, List.tail_cons,
    e6, e7, e8]
  simp [exponentValue, scalePow10]
  exact fun _ => hfne

theorem dotted_head_facts {intd : List Char} (frac : List Char)
    (hint : ∀ c ∈ intd, c.isDigit = true) :
    ∃ b bt, intd ++ '.' :: frac = b :: bt ∧ isJsSpace b = false ∧ b ≠ '-' ∧ b ≠ '+' := by
  cases intd with
  | nil => exact ⟨'.', frac, rfl, by decide, by decide, by decide⟩
  | cons d dt =>
      obtain ⟨h1, h2, _, _, h5⟩ := digit_ne_of_isDigit (hint d (by simp))
      exact ⟨d, dt ++ '.' :: frac, by simp, h5, h1, h2⟩

/-- `parseFloat` reads back exactly the value a well-formed signed decimal
numeral denotes. -/
theorem parseFloat_render {n : DecNumeral} (h : n.wf = true) :
    parseFloatList n.render = JsNum.num n.val := by
  obtain ⟨neg, intd, hasDot, frac⟩ := n
  simp only [DecNumeral.wf, Bool.and_eq_true, List.all_eq_true] at h
  obtain ⟨⟨hint, hfrac⟩, hshape⟩ := h
  cases hasDot
  · obtain ⟨hine, hfe⟩ : intd ≠ [] ∧ frac = [] := by simpa using hshape
    subst hfe
    obtain ⟨d, dt, rfl⟩ : ∃ d dt, intd = d :: dt := by
      cases intd with
      | nil => exact absurd rfl hine
      | cons d dt => exact ⟨d, dt, rfl⟩
    obtain ⟨hdm, hdp, _, _, hdsp⟩ := digit_ne_of_isDigit (hint d (by simp))
    cases neg
    · have hre : DecNumeral.render ⟨false, d :: dt, false, []⟩ = d :: dt := by
        simp [DecNumeral.render]
      rw [hre]
      have hdw : (d :: dt).dropWhile isJsSpace = d :: dt := by
        simp [List.dropWhile_cons, hdsp]
      have heq : parseFloatList (d :: dt) = parseFloatBody false (d :: dt) := by
        simp only [parseFloatList, hdw, List.headD_cons,
          beq_eq_false_iff_ne.mpr hdm, beq_eq_false_iff_ne.mpr hdp,
          Bool.or_self, Bool.false_eq_true, if_false]
      rw [heq, parseFloatBody_digits false (by simp) hint]
      simp [DecNumeral.val, digitsToNat]
    · have hre : DecNumeral.render ⟨true, d :: dt, false, []⟩ = '-' :: d :: dt := by
        simp [DecNumeral.render]
      rw [hre]
      have hdw : ('-' :: d :: dt).dropWhile isJsSpace = '-' :: d :: dt := by
        simp [List.dropWhile_cons, show isJsSpace '-' = false by decide]
      have heq : parseFloatList ('-' :: d :: dt) = parseFloatBody true (d :: dt) := by
        simp [parseFloatList, hdw]
      rw [heq, parseFloatBody_digits true (by simp) hint]
      simp [DecNumeral.val, digitsToNat]
  · have hfne : frac ≠ [] := by simpa using hshape
    obtain ⟨b, bt, hbody, hbsp, hbm, hbp⟩ := dotted_head_facts frac hint
    cases neg
    · have hre : DecNumeral.render ⟨false, intd, true, frac⟩ = intd ++ '.' :: frac := by
        simp [DecNumeral.render]
      rw [hre, hbody]
      have hdw : (b :: bt).dropWhile isJsSpace = b :: bt := by
        simp [List.dropWhile_cons, hbsp]
      have heq : parseFloatList (b :: bt) = parseFloatBody false (b :: bt) := by
        simp only [parseFloatList, hdw, List.headD_cons,
          beq_eq_false_iff_ne.mpr hbm, beq_eq_false_iff_ne.mpr hbp,
          Bool.or_self, Bool.false_eq_true, if_false]
      rw [heq, ← hbody, parseFloatBody_dotted false hint hfrac hfne]
      simp [DecNumeral.val]
    · have hre : DecNumeral.render ⟨true, intd, true, frac⟩
          = '-' :: (intd ++ '.' :: frac) := by
        simp [DecNumeral.render]
      rw [hre, hbody]
      have hdw : ('-' :: b :: bt).dropWhile isJsSpace = '-' :: b :: bt := by
        simp [List.dropWhile_cons, show isJsSpace '-' = false by decide]
      have heq : parseFloatList ('-' :: b :: bt) = parseFloatBody true (b :: bt) := by
        simp [parseFloatList, hdw]
      rw [heq, ← hbody, parseFloatBody_dotted true hint hfrac hfne]
      simp [DecNumeral.val]

theorem dod_not_space {c : Char} (h : isDigitOrDot c = true) : isJsSpace c = false := by
  simp only [isDigitOrDot, Bool.or_eq_true, decide_eq_true_eq] at h
  rcases h with h | h
  · exact (digit_ne_of_isDigit h).2.2.2.2
  · subst h; decide

theorem opChar_no_space {c : Char} (h : isOpChar c = true) : isJsSpace c = false := by
  rcases opChar_cases h with hc | hc | hc | hc <;> subst hc <;> decide

theorem render_no_space {n : DecNumeral} (h : n.wf = true) :
    ∀ c ∈ n.render, isJsSpace c = false := by
  intro c hc
  simp only [DecNumeral.render, List.mem_append] at hc
  rcases hc with ((hc | hc) | hc) | hc
  · cases hneg : n.neg
    · rw [hneg] at hc; simp at hc
    · rw [hneg] at hc
      simp at hc
      subst hc; decide
  · exact dod_not_space (render_body_dod h c (by simp [List.mem_append, hc]))
  · exact dod_not_space (render_body_dod h c (by simp [List.mem_append, hc]))
  · exact dod_not_space (render_body_dod h c (by simp [List.mem_append, hc]))

theorem removeSpaces_eq_self {cs : List Char} (h : ∀ c ∈ cs, isJsSpace c = false) :
    removeSpaces cs = cs :=
  List.filter_eq_self.mpr (fun c hc => by simp [h c hc])

theorem mk_ne_empty {cs : List Char} (h : cs ≠ []) : String.mk cs ≠ "" := by
  intro hc
  apply h
  have h2 := congrArg String.toList hc
  simpa using h2

/-- Evaluation of a rendered `a op b` expression string. -/
theorem evaluateExpression_mk_binop {a b : DecNumeral} {op : Char}
    (ha : a.wf = true) (hb : b.wf = true) (hop : isOpChar op = true) :
    evaluateExpression (String.mk (a.render ++ op :: b.render))
      = (if op = '+' then some (JsNum.num (a.val + b.val))
         else if op = '-' then some (JsNum.num (a.val - b.val))
         else if op = '*' then some (JsNum.num (a.val * b.val))
         else if b.val = 0 then none
         else some (JsNum.num (a.val / b.val))) := by
  have hne : a.render ++ op :: b.render ≠ [] := by simp
  have hnos : ∀ c ∈ a.render ++ op :: b.render, isJsSpace c = false := by
    intro c hc
    rcases List.mem_append.mp hc with hc | hc
    · exact render_no_space ha c hc
    · rcases List.mem_cons.mp hc with rfl | hc
      · exact opChar_no_space hop
      · exact render_no_space hb c hc
  have hclean : removeSpaces (String.mk (a.render ++ op :: b.render)).toList
      = a.render ++ op :: b.render := removeSpaces_eq_self hnos
  have hmatch : matchMathPattern (a.render ++ op :: b.render)
      = some (a.render, op, b.render) := by
    have hfs := findSplitAux_eq a.render [] op b.render
      (by simpa using numTok_render ha) hop (numTok_render hb)
    simpa [matchMathPattern] using hfs
  simp only [evaluateExpression, if_neg (mk_ne_empty hne), hclean, hmatch]
  rw [parseFloat_render ha, parseFloat_render hb]
  simp only [JsNum.isNaNb, Bool.or_self, Bool.false_eq_true, if_false]
  rcases opChar_cases hop with hco | hco | hco | hco <;> subst hco
  · simp [JsNum.add]
  · simp [JsNum.sub, JsNum.add, JsNum.neg]
    ring_nf
  · simp [JsNum.mul]
  · by_cases hz : b.val = 0
    · simp [hz]
    · simp [hz, JsNum.div]

/-- Evaluation of a lone rendered numeral string. -/
theorem evaluateExpression_mk_numeral {n : DecNumeral} (h : n.wf = true) :
    evaluateExpression (String.mk n.render) = some (JsNum.num n.val) := by
  have hne : n.render ≠ [] := by
    intro hc
    have hn := numTok_render h
    rw [hc] at hn
    simp [isNumTok] at hn
  have hclean : removeSpaces (String.mk n.render).toList = n.render :=
    removeSpaces_eq_self (render_no_space h)
  simp only [evaluateExpression, if_neg (mk_ne_empty hne), hclean,
    matchMathPattern_render_none h]
  rw [parseFloat_render h]
  simp [JsNum.isNaNb]

/-- `parseFloat` body on digits followed by a character that ends the
literal (not a digit, dot or exponent marker): the junk is ignored. -/
theorem parseFloatBody_digits_stop (sgnb : Bool) {ds : List Char} (hne : ds ≠ [])
    (h : ∀ c ∈ ds, c.isDigit = true) {j : Char} {js : List Char}
    (hjd : j.isDigit = false) (hjdot : (j == '.') = false) (hje : (j == 'e') = false)
    (hjE : (j == 'E') = false) (hjI : (ds ++ j :: js).take 8 ≠ "Infinity".toList) :
    parseFloatBody sgnb (ds ++ j :: js)
      = JsNum.num (if sgnb then -(digitsToNat ds : ℚ) else (digitsToNat ds : ℚ)) := by
  have e4 : (ds ++ j :: js).takeWhile Char.isDigit = ds :=
    takeWhile_append_stop ds j js h hjd
  have e5 : (ds ++ j :: js).dropWhile Char.isDigit = j :: js :=
    dropWhile_append_stop ds j js h hjd
  have e8 : ds.isEmpty = false := by simpa using hne
  have eexp : exponentValue (j :: js) = 0 := by
    simp [exponentValue, hje, hjE]
  simp only [parseFloatBody, hjI, if_false, e4, e5, List.headD_cons, hjdot,
    Bool.false_eq_true, e8, Bool.false_and, eexp]
  simp [scalePow10, digitsToNat]

/-- `evaluateExpression("abc")` is the absent result. -/
theorem evaluateExpression_abc_none : evaluateExpression "abc" = none := by decide

/-- `evaluateExpression("1+2+3")` falls back to `parseFloat` of the cleaned
string and yields `1` — the multi-operator string is not rejected. -/
theorem evaluateExpression_multiop_fallback :
    evaluateExpression "1+2+3" = some (JsNum.num 1) := by
  have hne : ("1+2+3" : String) ≠ "" := by decide
  have hclean : removeSpaces ("1+2+3" : String).toList = ['1', '+', '2', '+', '3'] := by
    decide
  have hm : matchMathPattern ['1', '+', '2', '+', '3'] = none := by decide
  have hdw : List.dropWhile isJsSpace ['1', '+', '2', '+', '3']
      = ['1', '+', '2', '+', '3'] := by decide
  have hstop := @parseFloatBody_digits_stop false ['1'] (by decide) (by decide)
      '+' ['2', '+', '3'] (by decide) (by decide) (by decide) (by decide)
      (by decide)
  have hp : parseFloatList ['1', '+', '2', '+', '3'] = JsNum.num 1 := by
    have h1 : parseFloatList ['1', '+', '2', '+', '3']
        = parseFloatBody false ['1', '+', '2', '+', '3'] := by
      simp only [parseFloatList, hdw, List.headD_cons,
        show ('1' == '-') = false from rfl, show ('1' == '+') = false from rfl,
        Bool.or_self, Bool.false_eq_true, if_false]
    rw [h1]
    have h2 : (['1'] ++ '+' :: ['2', '+', '3'] : List Char) = ['1', '+', '2', '+', '3'] := rfl
    rw [← h2, hstop]
    norm_num [show digitsToNat ['1'] = 1 from by decide]
  simp only [evaluateExpression, if_neg hne, hclean, hm, hp, JsNum.isNaNb,
    Bool.false_eq_true, if_false]

/-- Division by a zero numeral yields the absent result. -/
theorem evaluateExpression_five_div_zero : evaluateExpression "5/0" = none := by
  have h := @evaluateExpression_mk_binop ⟨false, ['5'], false, []⟩
      ⟨false, ['0'], false, []⟩ '/' (by decide) (by decide) (by decide)
  have hs : String.mk ((⟨false, ['5'], false, []⟩ : DecNumeral).render
      ++ '/' :: (⟨false, ['0'], false, []⟩ : DecNumeral).render) = "5/0" := by decide
  rw [hs] at h
  rw [h]
  have hz : (⟨false, ['0'], false, []⟩ : DecNumeral).val = 0 := by
    norm_num [DecNumeral.val, digitsToNat]
  rw [if_neg (by decide), if_neg (by decide), if_neg (by decide), if_pos hz]

/-- **C1** (counterexample): the claim says every string that is neither a
single binary operation nor a plain numeral returns the absent result, but
on `"1+2+3"` — more than one operator — `evaluateExpression` returns `1`,
the `parseFloat` prefix of the cleaned string, not `null`. -/
theorem C1_evaluateExpression_counterexample :
    evaluateExpression "1+2+3" = some (JsNum.num 1) :=
  evaluateExpression_multiop_fallback

/-- **C1** (amended): for every `a⊕b` with `⊕` one of `+ - * /` and `a`, `b`
optionally signed finite decimal numerals, `evaluateExpression` returns the
arithmetic result of `a⊕b`, except that division by a zero-valued `b`
returns the absent result; a plain numeral string returns its value; a
string that is neither (e.g. `"abc"`) is given to `parseFloat` on the
space-stripped string, returning its result unless that is `NaN` — so
`"abc"` yields the absent result but `"1+2+3"` yields `1`. -/
theorem C1_evaluateExpression_spec :
    (∀ (a b : DecNumeral) (op : Char), a.wf = true → b.wf = true → isOpChar op = true →
        evaluateExpression (String.mk (a.render ++ op :: b.render))
          = (if op = '+' then some (JsNum.num (a.val + b.val))
             else if op = '-' then some (JsNum.num (a.val - b.val))
             else if op = '*' then some (JsNum.num (a.val * b.val))
             else if b.val = 0 then none
             else some (JsNum.num (a.val / b.val)))) ∧
    (∀ n : DecNumeral, n.wf = true →
        evaluateExpression (String.mk n.render) = some (JsNum.num n.val)) ∧
    evaluateExpression "5/0" = none ∧
    evaluateExpression "abc" = none ∧
    evaluateExpression "1+2+3" = some (JsNum.num 1) :=
  ⟨fun _ _ _ ha hb hop => evaluateExpression_mk_binop ha hb hop,
   fun _ h => evaluateExpression_mk_numeral h,
   evaluateExpression_five_div_zero,
   evaluateExpression_abc_none,
   evaluateExpression_multiop_fallback⟩

/-- **C1** witness: `"12.5+3"` evaluates to `15.5`. -/
theorem C1_evaluateExpression_spec_witness :
    evaluateExpression (String.mk ((⟨false, ['1', '2'], true, ['5']⟩ : DecNumeral).render
        ++ '+' :: (⟨false, ['3'], false, []⟩ : DecNumeral).render))
      = some (JsNum.num (31/2)) := by
  have h := C1_evaluateExpression_spec.1 ⟨false, ['1', '2'], true, ['5']⟩
      ⟨false, ['3'], false, []⟩ '+' (by decide) (by decide) (by decide)
  rw [h, if_pos rfl]
  norm_num [DecNumeral.val, show digitsToNat ['1', '2'] = 12 from by decide,
    show digitsToNat ['5'] = 5 from by decide,
    show digitsToNat ['3'] = 3 from by decide,
    show digitsToNat [] = 0 from by decide]

/-- **C6** (counterexample): the claim says a non-finite parse such as
`"Infinity"` yields the absent result, but `processInputValue` only
rejects `NaN` (`!isNaN`, not `isFinite`): with the default bounds,
`"Infinity"` is returned as `Infinity`, not `null`. -/
theorem C6_processInputValue_counterexample :
    processInputValue "Infinity" JsNum.negInf JsNum.posInf false
      = some JsNum.posInf := by decide

/-- **C6** (amended): `processInputValue` rejects exactly a `NaN` parse
(non-finite values are not rejected: with default bounds `"Infinity"`
yields `Infinity`); with `positiveOnly` it also rejects a non-positive
parse; every other input is clamped into `[min, max]` and rounded to the
thousandth. -/
theorem C6_processInputValue_spec :
    (∀ (s : String) (mn mx : JsNum) (positiveOnly : Bool),
        (parsedInput s).isNaNb = true → processInputValue s mn mx positiveOnly = none) ∧
    (∀ (s : String) (mn mx : JsNum),
        JsNum.le (parsedInput s) (JsNum.num 0) = true →
        processInputValue s mn mx true = none) ∧
    (∀ (s : String) (mn mx : JsNum) (positiveOnly : Bool),
        (parsedInput s).isNaNb = false →
        (positiveOnly && JsNum.le (parsedInput s) (JsNum.num 0)) = false →
        processInputValue s mn mx positiveOnly
          = some (roundToThousandth (JsNum.max mn (JsNum.min mx (parsedInput s))))) ∧
    processInputValue "Infinity" JsNum.negInf JsNum.posInf false = some JsNum.posInf := by
  refine ⟨?_, ?_, ?_, by decide⟩
  · intro s mn mx positiveOnly h
    simp [processInputValue, h]
  · intro s mn mx h
    have hnn : (parsedInput s).isNaNb = false := by
      cases hp : parsedInput s
      · rfl
      · rfl
      · rfl
      · rw [hp] at h; simp [JsNum.le] at h
    simp [processInputValue, hnn, h]
  · intro s mn mx positiveOnly h1 h2
    simp [processInputValue, h1, h2]

/-- **C6** witness: `"abc"` parses to `NaN` and is rejected. -/
theorem C6_processInputValue_spec_witness :
    processInputValue "abc" (JsNum.num 0) (JsNum.num 10) false = none :=
  C6_processInputValue_spec.1 "abc" (JsNum.num 0) (JsNum.num 10) false (by decide)

theorem jsMax_num (a b : ℚ) :
    JsNum.max (JsNum.num a) (JsNum.num b) = JsNum.num (Max.max a b) := by
  simp only [JsNum.max, JsNum.isNaNb, Bool.or_self, Bool.false_eq_true, if_false, JsNum.lt,
    decide_eq_true_eq]
  rcases lt_or_ge a b with h | h
  · simp [h, max_eq_right h.le]
  · simp [not_lt.mpr h, max_eq_left h]

theorem jsMin_num (a b : ℚ) :
    JsNum.min (JsNum.num a) (JsNum.num b) = JsNum.num (Min.min a b) := by
  simp only [JsNum.min, JsNum.isNaNb, Bool.or_self, Bool.false_eq_true, if_false, JsNum.lt,
    decide_eq_true_eq]
  rcases lt_or_ge b a with h | h
  · simp [h, min_eq_right h.le]
  · simp [not_lt.mpr h, min_eq_left h]

theorem jsOrElse_num_of_ne {a : ℚ} (h : a ≠ 0) (d : JsNum) :
    JsNum.orElse (JsNum.num a) d = JsNum.num a := by
  simp [JsNum.orElse, JsNum.truthy, h]

/-- **C2**: loading an SVG whose positive `viewBox` dimensions have their
larger one strictly below 10 units yields a normalization scale of
`1000 / maxDimension`, making the larger normalized dimension exactly
1000; a larger dimension at or above 10 yields scale exactly 1 and
unchanged dimensions. -/
theorem C2_applyLoadedSvgNorm_spec :
    ∀ (w h : ℚ), 0 < w → 0 < h →
      (Max.max w h < 10 →
          (applyLoadedSvgNorm (JsNum.num w) (JsNum.num h)).normalizeScale
            = JsNum.num (1000 / Max.max w h) ∧
          JsNum.max (applyLoadedSvgNorm (JsNum.num w) (JsNum.num h)).normalizedWidth
              (applyLoadedSvgNorm (JsNum.num w) (JsNum.num h)).normalizedHeight
            = JsNum.num 1000) ∧
      (10 ≤ Max.max w h →
          (applyLoadedSvgNorm (JsNum.num w) (JsNum.num h)).normalizeScale = JsNum.num 1 ∧
          (applyLoadedSvgNorm (JsNum.num w) (JsNum.num h)).normalizedWidth = JsNum.num w ∧
          (applyLoadedSvgNorm (JsNum.num w) (JsNum.num h)).normalizedHeight
            = JsNum.num h) := by
  intro w h hw hh
  have hm : (0 : ℚ) < Max.max w h := lt_max_of_lt_left hw
  have hres : applyLoadedSvgNorm (JsNum.num w) (JsNum.num h)
      = { normalizeScale :=
            if JsNum.lt (JsNum.num (Max.max w h)) (JsNum.num 10)
            then JsNum.div (JsNum.num 1000) (JsNum.num (Max.max w h))
            else JsNum.num 1
          normalizedWidth :=
            JsNum.mul (JsNum.num w)
              (if JsNum.lt (JsNum.num (Max.max w h)) (JsNum.num 10)
               then JsNum.div (JsNum.num 1000) (JsNum.num (Max.max w h))
               else JsNum.num 1)
          normalizedHeight :=
            JsNum.mul (JsNum.num h)
              (if JsNum.lt (JsNum.num (Max.max w h)) (JsNum.num 10)
               then JsNum.div (JsNum.num 1000) (JsNum.num (Max.max w h))
               else JsNum.num 1) } := by
    simp only [applyLoadedSvgNorm, jsOrElse_num_of_ne hw.ne', jsOrElse_num_of_ne hh.ne',
      jsMax_num, jsOrElse_num_of_ne hm.ne']
  constructor
  · intro hlt
    have hlt' : JsNum.lt (JsNum.num (Max.max w h)) (JsNum.num 10) = true := by
      simp [JsNum.lt, hlt]
    have hdiv : JsNum.div (JsNum.num 1000) (JsNum.num (Max.max w h))
        = JsNum.num (1000 / Max.max w h) := by
      simp [JsNum.div, hm.ne']
    refine ⟨by simp [hres, hlt', hdiv], ?_⟩
    have hk : (0 : ℚ) < 1000 / Max.max w h := by positivity
    simp only [hres, hlt', if_true, hdiv, JsNum.mul, jsMax_num]
    rw [← max_mul_of_nonneg w h hk.le]
    congr 1
    field_simp
  · intro hge
    have hlt' : JsNum.lt (JsNum.num (Max.max w h)) (JsNum.num 10) = false := by
      simp [JsNum.lt, not_lt.mpr hge]
    refine ⟨by simp [hres, hlt'], ?_, ?_⟩ <;>
      simp [hres, hlt', JsNum.mul]

/-- **C2** witness: a 4x2 viewBox is scaled by 250, a 20x12 one by 1. -/
theorem C2_applyLoadedSvgNorm_spec_witness :
    ((applyLoadedSvgNorm (JsNum.num 4) (JsNum.num 2)).normalizeScale
        = JsNum.num (1000 / Max.max (4 : ℚ) 2) ∧
      JsNum.max (applyLoadedSvgNorm (JsNum.num 4) (JsNum.num 2)).normalizedWidth
          (applyLoadedSvgNorm (JsNum.num 4) (JsNum.num 2)).normalizedHeight
        = JsNum.num 1000) ∧
    (applyLoadedSvgNorm (JsNum.num 20) (JsNum.num 12)).normalizeScale = JsNum.num 1 :=
  ⟨(C2_applyLoadedSvgNorm_spec 4 2 (by norm_num) (by norm_num)).1 (by
      rw [show Max.max (4 : ℚ) 2 = 4 from by norm_num [max_eq_left]]; norm_num),
   ((C2_applyLoadedSvgNorm_spec 20 12 (by norm_num) (by norm_num)).2 (by
      rw [show Max.max (20 : ℚ) 12 = 20 from by norm_num [max_eq_left]]; norm_num)).1⟩

/-- **C3**: zooming anchored at a pointer keeps the document-space point
under the cursor fixed exactly; zooming without a pointer keeps the camera
center fixed. -/
theorem C3_computeZoomedCamera_anchor :
    ∀ (baseSize : BaseSize) (camera : Camera) (newZoom : ℚ) (rect : ClientRect)
      (evt : MouseEvt), 0 < rect.width → 0 < rect.height → 0 < newZoom →
      clientToSvgUnits rect (computeZoomedCamera baseSize camera newZoom rect (some evt)) evt
          = clientToSvgUnits rect camera evt ∧
      ((computeZoomedCamera baseSize camera newZoom rect none).minX
            + (computeZoomedCamera baseSize camera newZoom rect none).width / 2
          = camera.minX + camera.width / 2 ∧
        (computeZoomedCamera baseSize camera newZoom rect none).minY
            + (computeZoomedCamera baseSize camera newZoom rect none).height / 2
          = camera.minY + camera.height / 2) := by
  intro baseSize camera newZoom rect evt _ _ _
  refine ⟨?_, ?_, ?_⟩
  · simp only [clientToSvgUnits, computeZoomedCamera, Prod.mk.injEq]
    constructor <;> ring
  · simp only [computeZoomedCamera]
    ring
  · simp only [computeZoomedCamera]
    ring

/-- **C3** witness: a concrete zoom at a concrete pointer position. -/
theorem C3_computeZoomedCamera_anchor_witness :
    clientToSvgUnits ⟨0, 0, 800, 600⟩
        (computeZoomedCamera ⟨600, 400⟩ ⟨0, 0, 600, 400⟩ 2 ⟨0, 0, 800, 600⟩
          (some ⟨200, 150⟩)) ⟨200, 150⟩
      = clientToSvgUnits ⟨0, 0, 800, 600⟩ ⟨0, 0, 600, 400⟩ ⟨200, 150⟩ :=
  (C3_computeZoomedCamera_anchor ⟨600, 400⟩ ⟨0, 0, 600, 400⟩ 2 ⟨0, 0, 800, 600⟩
    ⟨200, 150⟩ (by norm_num) (by norm_num) (by norm_num)).1

theorem handleZoomStep_bounds (d : Bool) (z : ℚ) :
    0.1 ≤ handleZoomStep d z ∧ handleZoomStep d z ≤ 5 := by
  unfold handleZoomStep
  exact ⟨le_max_left _ _, max_le (by norm_num) (min_le_left _ _)⟩

/-- **C4**: from any zoom factor in `[0.1, 5]`, any sequence of zoom steps
(each multiplying by 1.1 or 0.9 and clamping) keeps the factor in
`[0.1, 5]`; every intermediate value is itself such a fold, so the bound
holds after every step. -/
theorem C4_handleZoom_clamped :
    ∀ (steps : List Bool) (z : ℚ), 0.1 ≤ z → z ≤ 5 →
      0.1 ≤ steps.foldl (fun acc d => handleZoomStep d acc) z ∧
      steps.foldl (fun acc d => handleZoomStep d acc) z ≤ 5 := by
  intro steps
  induction steps with
  | nil => intro z h1 h2; exact ⟨h1, h2⟩
  | cons d rest ih =>
      intro z _ _
      simp only [List.foldl_cons]
      exact ih _ (handleZoomStep_bounds d z).1 (handleZoomStep_bounds d z).2

/-- **C4** witness: three zoom-ins from the top of the range stay at 5. -/
theorem C4_handleZoom_clamped_witness :
    0.1 ≤ [true, true, true].foldl (fun acc d => handleZoomStep d acc) (5 : ℚ) ∧
    [true, true, true].foldl (fun acc d => handleZoomStep d acc) (5 : ℚ) ≤ 5 :=
  C4_handleZoom_clamped [true, true, true] 5 (by norm_num) (by norm_num)

/-- **C7** (counterexample): the claim says rectangles that merely touch
along an edge are reported as non-overlapping; but with
`bounds.maxX = rect.x` and the rectangles otherwise aligned,
`intersectsRect` returns `true`. -/
theorem C7_intersectsRect_counterexample :
    intersectsRect ⟨0, 0, 5, 5⟩ ⟨5, 0, 5, 5⟩ = true := by
  norm_num [intersectsRect]

/-- **C7** (amended): `intersectsRect` is the closed-rectangle overlap
test: it reports an intersection exactly when the rectangles are not
strictly separated on either axis, so rectangles that merely touch along
an edge (e.g. `bounds.maxX = rect.x`) count as intersecting. -/
theorem C7_intersectsRect_spec :
    (∀ (a : Bounds) (b : RectWH),
        intersectsRect a b
          = (decide (b.x ≤ a.maxX) && decide (a.minX ≤ b.x + b.width) &&
             decide (b.y ≤ a.maxY) && decide (a.minY ≤ b.y + b.height))) ∧
    intersectsRect ⟨0, 0, 5, 5⟩ ⟨5, 0, 5, 5⟩ = true := by
  constructor
  · intro a b
    simp only [intersectsRect, Bool.not_or, ← decide_not, not_lt]
  · norm_num [intersectsRect]

/-- **C8**: both upload functions reject a file above
`FILE_CONFIG.MAX_FILE_SIZE` with a size-limit error before any request
value is constructed (the `rejectedSize` outcome carries no request), and
a file at or below the ceiling passes the size check and produces the
request. -/
theorem C8_upload_size_gate :
    ∀ (file : UploadFileInfo) (p : UploadParams),
      (file.size > MAX_FILE_SIZE →
        (uploadFileStart file p).isRejectedSize = true ∧
        (uploadFileSVGStart file p).isRejectedSize = true) ∧
      (file.size ≤ MAX_FILE_SIZE →
        uploadFileStart file p
            = UploadStart.request "/upload/" (buildUploadFormData p) ∧
        uploadFileSVGStart file p
            = UploadStartSVG.request "/generate-map-svg" (buildUploadFormDataSVG p)) := by
  intro file p
  constructor
  · intro hbig
    constructor
    · unfold uploadFileStart
      rw [if_pos hbig]
      rfl
    · unfold uploadFileSVGStart
      rw [if_pos hbig]
      rfl
  · intro hsmall
    have hns : ¬ file.size > MAX_FILE_SIZE := not_lt.mpr hsmall
    exact ⟨by simp [uploadFileStart, hns], by simp [uploadFileSVGStart, hns]⟩

/-- **C8** witness: a file one byte over the 100 MB ceiling is rejected;
a small file is sent. -/
theorem C8_upload_size_gate_witness :
    (uploadFileStart ⟨"big.obj", 104857601⟩
        ⟨none, none, none, none, none, none, none, none, none, none, none, none,
          none⟩).isRejectedSize = true ∧
    uploadFileStart ⟨"small.obj", 1024⟩
        ⟨none, none, none, none, none, none, none, none, none, none, none, none, none⟩
      = UploadStart.request "/upload/"
          (buildUploadFormData
            ⟨none, none, none, none, none, none, none, none, none, none, none, none,
              none⟩) :=
  ⟨((C8_upload_size_gate ⟨"big.obj", 104857601⟩ _).1 (by norm_num [MAX_FILE_SIZE])).1,
   ((C8_upload_size_gate ⟨"small.obj", 1024⟩ _).2 (by norm_num [MAX_FILE_SIZE])).1⟩

/-- **C10**: absent or falsy parameter fields are replaced by their
defaults in the transmitted form data; in particular an explicit `0` for
`contourLevels`, `scale` or `lineWidth` is replaced by 20, 1.0 and 1.0
respectively, and is never transmitted. -/
theorem C10_upload_param_defaults :
    (∀ p : UploadParams, p.contourLevels = some (JsNum.num 0) →
        (buildUploadFormData p).contour_levels = JsNum.num 20 ∧
        (buildUploadFormDataSVG p).contour_levels = JsNum.num 20) ∧
    (∀ p : UploadParams, p.scale = some (JsNum.num 0) →
        (buildUploadFormData p).scale = JsNum.num 1 ∧
        (buildUploadFormDataSVG p).scale = JsNum.num 1) ∧
    (∀ p : UploadParams, p.lineWidth = some (JsNum.num 0) →
        (buildUploadFormDataSVG p).line_width = JsNum.num 1) ∧
    (∀ p : UploadParams, p.contourLevels = none →
        (buildUploadFormData p).contour_levels = JsNum.num 20) ∧
    (∀ p : UploadParams, p.scale = none → (buildUploadFormData p).scale = JsNum.num 1) ∧
    (∀ p : UploadParams, p.lineWidth = none →
        (buildUploadFormDataSVG p).line_width = JsNum.num 1) ∧
    (∀ p : UploadParams, p.engine = none → (buildUploadFormData p).engine = "trimesh") ∧
    (∀ p : UploadParams, p.rotationX = none →
        (buildUploadFormData p).rotation_x = JsNum.num 0) ∧
    (∀ p : UploadParams, p.translationY = none →
        (buildUploadFormData p).translation_y = JsNum.num 0) ∧
    (∀ p : UploadParams, p.pivotZ = none → (buildUploadFormData p).pivot_z = JsNum.num 0) := by
  refine ⟨?_, ?_, ?_, ?_, ?_, ?_, ?_, ?_, ?_, ?_⟩ <;> intro p h <;>
    simp [buildUploadFormData, buildUploadFormDataSVG, jsOrNum, jsOrStr, h,
      JsNum.orElse, JsNum.truthy]

/-- **C10** witness: an explicit zero `contourLevels` is transmitted as 20. -/
theorem C10_upload_param_defaults_witness :
    (buildUploadFormData
        ⟨some (JsNum.num 0), none, none, none, none, none, none, none, none, none,
          none, none, none⟩).contour_levels = JsNum.num 20 :=
  (C10_upload_param_defaults.1
    ⟨some (JsNum.num 0), none, none, none, none, none, none, none, none, none,
      none, none, none⟩ rfl).1

/-- **C9**: when the upload request fails, the settled hook state has
`loading` off, the failure message in `error`, a cleared status, no
result, and the selected file and recorded filename unchanged from the
moment the request was issued; with a file selected the computed phase is
`"preview"` — the same phase the UI shows before a request when no result
is present. -/
theorem C9_upload_failure_returns_to_preview :
    ∀ (s : HookState) (file : UploadFileInfo) (msg : String),
      (handleUploadSettle (handleUploadStart s file) (Except.error msg)).loading = false ∧
      (handleUploadSettle (handleUploadStart s file) (Except.error msg)).error = msg ∧
      (handleUploadSettle (handleUploadStart s file) (Except.error msg)).status = "" ∧
      (handleUploadSettle (handleUploadStart s file) (Except.error msg)).resultImage
          = none ∧
      (handleUploadSettle (handleUploadStart s file) (Except.error msg)).resultBlob = none ∧
      (handleUploadSettle (handleUploadStart s file) (Except.error msg)).selectedFile
          = s.selectedFile ∧
      (handleUploadSettle (handleUploadStart s file) (Except.error msg)).originalFileName
          = (handleUploadStart s file).originalFileName ∧
      (s.selectedFile.isSome = true →
        getPhase (handleUploadSettle (handleUploadStart s file) (Except.error msg))
          = "preview") ∧
      (s.selectedFile.isSome = true → s.loading = false → s.resultImage = none →
        getPhase s = "preview") := by
  intro s file msg
  refine ⟨rfl, rfl, rfl, rfl, rfl, rfl, rfl, ?_, ?_⟩
  · intro hsel
    simp [getPhase, handleUploadSettle, handleUploadStart, hsel,
      Option.isNone_iff_eq_none, Option.isSome_iff_ne_none]
    intro hc
    simp [hc] at hsel
  · intro hsel hload hres
    simp [getPhase, hsel, hload, hres, Option.isNone_iff_eq_none,
      Option.isSome_iff_ne_none]
    intro hc
    simp [hc] at hsel

/-- **C9** witness: a concrete failing upload from the preview phase. -/
theorem C9_upload_failure_returns_to_preview_witness :
    getPhase
        (handleUploadSettle
          (handleUploadStart
            ⟨false, 0, "", "", none, none, none, "", some ⟨"model.obj", 42⟩⟩
            ⟨"model.obj", 42⟩)
          (Except.error "ProcessingFailed: engine crashed"))
      = "preview" :=
  ((C9_upload_failure_returns_to_preview
      ⟨false, 0, "", "", none, none, none, "", some ⟨"model.obj", 42⟩⟩
      ⟨"model.obj", 42⟩ "ProcessingFailed: engine crashed").2.2.2.2.2.2.2.1) rfl

/-- **C5**: for an element whose `stroke` and `stroke-width` attributes
hold (nonempty) values and whose shadow attributes are not yet set — the
state of every freshly loaded element, and property edits keep the shadow
pair in sync — applying the selection styling and then removing it, via
`removeSelectionStyle` or via `clearSelection`'s per-element restoration,
restores `stroke` and `stroke-width` to exactly their pre-selection
values. -/
theorem C5_selection_style_roundtrip :
    ∀ (el : EditorElement) (s w : String),
      el.stroke = some s → s ≠ "" →
      el.strokeWidth = some w → w ≠ "" →
      attrTruthy el.dataOriginalStroke = false →
      attrTruthy el.dataOriginalStrokeWidth = false →
      (removeSelectionStyle (applySelectionStyle el)).stroke = some s ∧
      (removeSelectionStyle (applySelectionStyle el)).strokeWidth = some w ∧
      (clearSelectionRestore (applySelectionStyle el)).stroke = some s ∧
      (clearSelectionRestore (applySelectionStyle el)).strokeWidth = some w := by
  intro el s w hs hsne hw hwne hshadow1 hshadow2
  have happ : (applySelectionStyle el).dataOriginalStroke = some s ∧
      (applySelectionStyle el).dataOriginalStrokeWidth = some w := by
    simp only [applySelectionStyle, hshadow1, Bool.not_false, if_true]
    have h1 : attrTruthy (some (jsOrStr el.stroke "#000000")) = false → False := by
      simp [jsOrStr, hs, hsne, attrTruthy]
    simp only [hshadow2, Bool.not_false, if_true]
    simp [jsOrStr, hs, hw, hsne, hwne]
  refine ⟨?_, ?_, ?_, ?_⟩ <;>
    simp [removeSelectionStyle, clearSelectionRestore, happ.1, happ.2, jsOrStr,
      jsOrAttr2, hsne, hwne]

/-- **C5** witness: a red, 2-wide element survives select→deselect. -/
theorem C5_selection_style_roundtrip_witness :
    (removeSelectionStyle (applySelectionStyle
        ⟨some "#ff0000", some "2", none, none, none, ""⟩)).stroke = some "#ff0000" ∧
    (removeSelectionStyle (applySelectionStyle
        ⟨some "#ff0000", some "2", none, none, none, ""⟩)).strokeWidth = some "2" ∧
    (clearSelectionRestore (applySelectionStyle
        ⟨some "#ff0000", some "2", none, none, none, ""⟩)).stroke = some "#ff0000" ∧
    (clearSelectionRestore (applySelectionStyle
        ⟨some "#ff0000", some "2", none, none, none, ""⟩)).strokeWidth = some "2" :=
  C5_selection_style_roundtrip ⟨some "#ff0000", some "2", none, none, none, ""⟩
    "#ff0000" "2" rfl (by decide) rfl (by decide) rfl rfl
